import Mathlib

/-!
Shallow embedding of the `dynamo` Go library (marshaling engine, set
encoding, create-table schema inference, retry classification), together
with theorems settling the frozen claims about it.

Source files embedded:
  * `src/unnamed/part_001` — `marshalStruct`, `marshal`, `marshalReflect`,
    `marshalSet`, `marshalSlice`, `fieldInfo`, `isZero`;
  * `src/createtable.go` — `CreateTable`, `from`, `input`, `add`,
    `setError`, `typeOf`, `keyTypeFromTag`, `sortKeySchemas`,
    `RunWithContext`;
  * `src/unnamed/part_000` — `retry`, `canRetry`.
-/

namespace Dynamo

/-- Go reflect kinds relevant to the embedded code paths. -/
inductive GoKind where
  | bool | int | int8 | int16 | int32 | int64
  | uint | uint8 | uint16 | uint32 | uint64
  | float32 | float64
  | string | ptr | map | slice | struct | iface | func | array
  deriving DecidableEq

/-- Signed integer kinds, the five cases listed at part_001 line 110. -/
inductive SignedK where
  | int | int64 | int32 | int16 | int8
  deriving DecidableEq

/-- Unsigned integer kinds (absent from the marshalReflect switch). -/
inductive UnsignedK where
  | uint | uint64 | uint32 | uint16 | uint8
  deriving DecidableEq

/-- Float kinds, the two cases listed at part_001 line 112. -/
inductive FloatK where
  | float32 | float64
  deriving DecidableEq

def SignedK.kind : SignedK → GoKind
  | .int => .int
  | .int64 => .int64
  | .int32 => .int32
  | .int16 => .int16
  | .int8 => .int8

def UnsignedK.kind : UnsignedK → GoKind
  | .uint => .uint
  | .uint64 => .uint64
  | .uint32 => .uint32
  | .uint16 => .uint16
  | .uint8 => .uint8

def FloatK.kind : FloatK → GoKind
  | .float32 => .float32
  | .float64 => .float64

/-- Rendering of `rv.Type().String()` for the kinds the error messages of
the embedded code can mention. -/
def UnsignedK.typeString : UnsignedK → String
  | .uint => "uint"
  | .uint64 => "uint64"
  | .uint32 => "uint32"
  | .uint16 => "uint16"
  | .uint8 => "uint8"

/-- Model of `dynamodb.AttributeValue`: the Go struct has one pointer or
slice field per variant, with exactly one populated by this library; we
model it as the tagged union of which field is set.  `L` holds
`Option AttributeValue` because the Go field is a slice of pointers and
the code can append a nil pointer (part_001 line 154). -/
inductive AttributeValue where
  | S (s : String)
  | N (n : String)
  | B (b : List Nat)
  | BOOL (b : Bool)
  | NULL (b : Bool)
  | SS (ss : List String)
  | NS (ns : List String)
  | BS (bs : List (List Nat))
  | L (l : List (Option AttributeValue))
  | M (m : List (String × AttributeValue))

/-- Outcome of running a fragment of the Go code: a returned `error`
value, or a runtime panic (index out of range, reflect misuse). -/
inductive MErr where
  | goError (msg : String)
  | panic (msg : String)
  deriving DecidableEq

/-- Element type descriptor of a Go slice, as observed by the embedded
code: its reflect kind (`rv.Type().Elem().Kind()`) and whether the
element type implements `encoding.TextMarshaler` (the type switch on
`reflect.Zero(rv.Type().Elem()).Interface()` at part_001 line 164). -/
structure GoElemType where
  kind : GoKind
  textM : Bool
  deriving DecidableEq

/-- Model of a Go value as observed through `reflect` by the embedded
code.  Capability-bearing values (`Marshaler`, `encoding.TextMarshaler`)
are modeled by dedicated constructors carrying their reflect kind and the
outcome of invoking the capability; their structural fields are not
represented because the embedded code never traverses them structurally
(the capability type switches fire first).  A float value is modeled by
the two observations the code makes of it: its
`strconv.FormatFloat(v, 'f', -1, 64)` text and whether it compares equal
to the zero float.  Struct fields are tuples
`(goFieldName, dynamoTag, anonymous, exported, value)` where `dynamoTag`
is the result of `field.Tag.Get("dynamo")`. -/
inductive GoValue where
  | VBool (b : Bool)
  | VSigned (k : SignedK) (n : Int)
  | VUnsigned (k : UnsignedK) (n : Nat)
  | VFloat (k : FloatK) (text : String) (isz : Bool)
  | VString (s : String)
  | VPtr (v : Option GoValue)
  | VMap (keyIsString : Bool) (isNil : Bool) (entries : List (String × GoValue))
  | VSlice (elem : GoElemType) (isNil : Bool) (elems : List GoValue)
  | VStruct (fields : List (String × String × Bool × Bool × GoValue))
  | VIface (v : Option GoValue)
  | VFunc (isNil : Bool)
  | VTextMarshaler (k : GoKind) (res : Except String String)
  | VMarshaler (k : GoKind) (res : Except String (Option AttributeValue))

open GoValue

/-- Reflect kind of a modeled value (`rv.Kind()`). -/
def kindOf : GoValue → GoKind
  | VBool _ => .bool
  | VSigned k _ => k.kind
  | VUnsigned k _ => k.kind
  | VFloat k _ _ => k.kind
  | VString _ => .string
  | VPtr _ => .ptr
  | VMap _ _ _ => .map
  | VSlice _ _ _ => .slice
  | VStruct _ => .struct
  | VIface _ => .iface
  | VFunc _ => .func
  | VTextMarshaler k _ => k
  | VMarshaler k _ => k

/-- Model of `strings.Split` with a single-character separator,
accumulator form structurally recursive on the character list. -/
def goSplitAux (sep : Char) : List Char → List Char → List String
  | [], acc => [String.mk acc.reverse]
  | c :: cs, acc =>
      if c = sep then String.mk acc.reverse :: goSplitAux sep cs []
      else goSplitAux sep cs (c :: acc)

/-- Model of `strings.Split(s, sep)` for a one-character separator (the
only form the embedded code uses): like Go, splitting the empty string
yields `[""]`, so the result is never empty. -/
def goSplit (s : String) (sep : Char) : List String := goSplitAux sep s.data []

/-- Embedding of `fieldInfo` (part_001 lines 224-244): split the dynamo
tag on commas; the first segment is the name (empty means the Go field
name); among the remaining segments, the literal `omitempty` sets the
omit flag and any other segment becomes the special modifier, last one
winning.  `goSplit` agrees with Go `strings.Split` on every input (both
return `[""]` for the empty string), so the `len(tags) == 0` branch of
the source is dead and is modeled as such. -/
def fieldInfo (goName : String) (dynamoTag : String) : String × String × Bool :=
  let tags := goSplit dynamoTag ','
  let name0 := tags.headD ""
  let name := if name0 = "" then goName else name0
  let so := tags.tail.foldl
    (fun (acc : String × Bool) t =>
      if t = "omitempty" then (acc.1, true) else (t, acc.2))
    ("", false)
  (name, so.1, so.2)

mutual

/-- Embedding of `isZero` (part_001 lines 251-287).  The `isZeroer`
capability branch is not modeled (no modeled value carries it); values
with the `Marshaler` or `TextMarshaler` capability always report false
(lines 259-266); func/map/slice are zero iff nil; structs are zero iff
every field value is recursively zero (the source calls `rv.Field(i)`
on every field; the panic `reflect.Value.Interface` would raise on an
unexported field is not modeled — no theorem below applies `isZero` to a
struct with unexported fields); other kinds compare against the kind's
zero value. -/
def isZero : GoValue → Bool
  | VTextMarshaler _ _ => false
  | VMarshaler _ _ => false
  | VFunc isNil => isNil
  | VMap _ isNil _ => isNil
  | VSlice _ isNil _ => isNil
  | VStruct fields => isZeroFields fields
  | VBool b => !b
  | VSigned _ n => n = 0
  | VUnsigned _ n => n = 0
  | VFloat _ _ isz => isz
  | VString s => s = ""
  | VPtr v => v.isNone
  | VIface v => v.isNone

/-- Field loop of the struct case of `isZero` (part_001 lines 277-282):
a struct is zero iff every field value is recursively zero. -/
def isZeroFields : List (String × String × Bool × Bool × GoValue) → Bool
  | [] => true
  | (_, _, _, _, fv) :: rest => isZero fv && isZeroFields rest

end

/-- Rendering of a Go kind as `rv.Type().String()` renders the
corresponding built-in type.  For a user-named type Go would render the
package-qualified name instead; the embedded error messages only ever
reach this rendering for built-in element types in the theorems below. -/
def GoKind.typeString : GoKind → String
  | .bool => "bool"
  | .int => "int"
  | .int8 => "int8"
  | .int16 => "int16"
  | .int32 => "int32"
  | .int64 => "int64"
  | .uint => "uint"
  | .uint8 => "uint8"
  | .uint16 => "uint16"
  | .uint32 => "uint32"
  | .uint64 => "uint64"
  | .float32 => "float32"
  | .float64 => "float64"
  | .string => "string"
  | .ptr => "ptr"
  | .map => "map"
  | .slice => "slice"
  | .struct => "struct"
  | .iface => "interface"
  | .func => "func"
  | .array => "array"

/-- Model of `reflect.Value.Bytes` (`rv.Bytes()`): returns the byte
contents when the receiver is a slice with `uint8` elements, and panics
otherwise.  The `0` fallback for a non-`uint8` element inside a
`uint8`-kinded slice is unreachable for values built by Go reflection. -/
def goBytes : GoValue → Except MErr (List Nat)
  | VSlice e _ elems =>
      if e.kind = .uint8 then
        .ok (elems.map fun x =>
          match x with
          | VUnsigned .uint8 n => n
          | _ => 0)
      else .error (.panic "reflect: call of Bytes on non-byte slice")
  | _ => .error (.panic "reflect: call of Bytes on non-slice value")

/-- Loop of the `TextMarshaler` arm of `marshalSet` (part_001 lines
166-174): each element is cast to `encoding.TextMarshaler` and its
`MarshalText` output collected; a marshal error aborts, and a
non-marshaler element would be an interface-conversion panic. -/
def setTexts : List GoValue → Except MErr (List String)
  | [] => .ok []
  | VTextMarshaler _ (.ok t) :: rest => do
      let ts ← setTexts rest
      .ok (t :: ts)
  | VTextMarshaler _ (.error e) :: _ => .error (.goError e)
  | _ :: _ => .error (.panic "interface conversion")

/-- Loop of the signed-integer arm of `marshalSet` (part_001 lines
180-183): `strconv.FormatInt(rv.Index(i).Int(), 10)` per element;
`Value.Int` panics on a non-integer value. -/
def setInts : List GoValue → Except MErr (List String)
  | [] => .ok []
  | VSigned _ n :: rest => do
      let ns ← setInts rest
      .ok (toString n :: ns)
  | _ :: _ => .error (.panic "reflect: call of reflect.Value.Int on non-int Value")

/-- Loop of the float arm of `marshalSet` (part_001 lines 186-189):
`strconv.FormatFloat(rv.Index(i).Float(), 'f', -1, 64)` per element. -/
def setFloats : List GoValue → Except MErr (List String)
  | [] => .ok []
  | VFloat _ text _ :: rest => do
      let ns ← setFloats rest
      .ok (text :: ns)
  | _ :: _ => .error (.panic "reflect: call of reflect.Value.Float on non-float Value")

/-- Loop of the string arm of `marshalSet` (part_001 lines 192-195):
`rv.Index(i).String()` per element (which for a non-string value renders
a placeholder rather than panicking, mirrored here). -/
def setStrings (elems : List GoValue) : List String :=
  elems.map fun v =>
    match v with
    | VString s => s
    | w => "<" ++ (kindOf w).typeString ++ " Value>"

/-- Loop of the byte-slice arm of `marshalSet` (part_001 lines 199-202).
In the source this arm is unreachable: it is guarded by
`rv.Type().Elem().Kind() == reflect.Int8` evaluated when that kind is
already known to be `Slice`. -/
def setByteSlices : List GoValue → Except MErr (List (List Nat))
  | [] => .ok []
  | v :: rest => do
      let b ← goBytes v
      let bs ← setByteSlices rest
      .ok (b :: bs)

/-- Embedding of `marshalSet` (part_001 lines 162-208), dispatching on
the slice element type `e`.  Note two divergences of the source from
this library's documented intent, reproduced faithfully here: both the
`TextMarshaler` arm (line 175) and the string arm (line 196) populate
the `NS` (number set) field rather than `SS`, and the byte-slice-set arm
re-tests the already-matched element kind against `reflect.Int8`
(line 198), making the `BS` arm dead code. -/
def marshalSet (e : GoElemType) (elems : List GoValue) : Except MErr AttributeValue :=
  if e.textM then do
    let ss ← setTexts elems
    .ok (.NS ss)
  else
    match e.kind with
    | .int | .int64 | .int32 | .int16 | .int8 => do
        let ns ← setInts elems
        .ok (.NS ns)
    | .float32 | .float64 => do
        let ns ← setFloats elems
        .ok (.NS ns)
    | .string => .ok (.NS (setStrings elems))
    | .slice =>
        if e.kind = .int8 then do
          let bs ← setByteSlices elems
          .ok (.BS bs)
        else
          .error (.goError ("dynamo marshal: unknown type for sets []" ++ e.kind.typeString))
    | _ => .error (.goError ("dynamo marshal: unknown type for sets []" ++ e.kind.typeString))

/-- Assignment `item[k] = v` on the Go map accumulated by
`marshalStruct`, modeled on an association list: replace the binding if
the key is present, else append. -/
def mapInsert (m : List (String × AttributeValue)) (k : String) (v : AttributeValue) :
    List (String × AttributeValue) :=
  match m with
  | [] => [(k, v)]
  | (k1, v1) :: rest => if k1 = k then (k, v) :: rest else (k1, v1) :: mapInsert rest k v

mutual

/-- Embedding of `marshal` (part_001 lines 81-98): the `Marshaler`
capability is delegated to verbatim; `TextMarshaler` encodes to a
`String` variant unless the text is empty, in which case the result is
the nil attribute value (modeled as `none`); a nil interface becomes an
explicit `NULL`; everything else goes to `marshalReflect`.  A non-nil
interface value is unwrapped to its dynamic value, which is what the
`fv.Interface()` at each Go call site passes in. -/
def marshal (v : GoValue) (special : String) : Except MErr (Option AttributeValue) :=
  match v with
  | VMarshaler _ res =>
      match res with
      | .ok av => .ok av
      | .error e => .error (.goError e)
  | VTextMarshaler _ res =>
      match res with
      | .error e => .error (.goError e)
      | .ok text => if text.length = 0 then .ok none else .ok (some (.S text))
  | VIface none => .ok (some (.NULL true))
  | VIface (some w) => marshal w special
  | w => marshalReflect w special
termination_by (sizeOf v, 2)

/-- Embedding of `marshalReflect` (part_001 lines 100-160).  The
byte-slice special case tests the element kind against `reflect.Int8`
(line 139), so a `[]byte` (element kind `uint8`) does not take it, while
a `[]int8` takes it and panics inside `rv.Bytes()`; the list arm appends
each element's marshal result without a nil check (line 154). -/
def marshalReflect (v : GoValue) (special : String) : Except MErr (Option AttributeValue) :=
  match v with
  | VPtr none => .ok (some (.NULL true))
  | VPtr (some p) => marshal p special
  | VBool b => .ok (some (.BOOL b))
  | VSigned _ n => .ok (some (.N (toString n)))
  | VFloat _ text _ => .ok (some (.N text))
  | VString s => .ok (some (.S s))
  | VMap keyIsString _ entries =>
      if keyIsString then do
        let avs ← marshalMapEntries entries
        .ok (some (.M avs))
      else
        .error (.goError "dynamo marshal: map key must be string")
  | VStruct fields => do
      let avs ← marshalStruct (VStruct fields)
      .ok (some (.M avs))
  | VSlice e _ elems =>
      if e.kind = .int8 then do
        let b ← goBytes (VSlice e false elems)
        .ok (some (.B b))
      else if special = "set" then do
        let av ← marshalSet e elems
        .ok (some av)
      else do
        let avs ← marshalSliceElems elems
        .ok (some (.L avs))
  | _ => .error (.goError ("dynamo marshal: unknown type " ++ (kindOf v).typeString))
termination_by (sizeOf v, 1)

/-- Loop of the map arm of `marshalReflect` (part_001 lines 120-129):
marshal each entry value with no special modifier, skipping entries
whose marshal result is nil. -/
def marshalMapEntries : List (String × GoValue) → Except MErr (List (String × AttributeValue))
  | [] => .ok []
  | (k, v) :: rest => do
      let av ← marshal v ""
      let avs ← marshalMapEntries rest
      match av with
      | some a => .ok ((k, a) :: avs)
      | none => .ok avs
termination_by es => (sizeOf es, 0)

/-- Loop of the list arm of `marshalReflect` (part_001 lines 147-155):
marshal each element and append the result as-is — a nil result is
appended as a nil entry, unlike in `marshalSlice`. -/
def marshalSliceElems : List GoValue → Except MErr (List (Option AttributeValue))
  | [] => .ok []
  | v :: rest => do
      let av ← marshal v ""
      let avs ← marshalSliceElems rest
      .ok (av :: avs)
termination_by es => (sizeOf es, 0)

/-- Embedding of `marshalStruct` (part_001 lines 18-79): dereference a
pointer argument (a nil pointer panics inside `rv.Elem().Interface()`),
reject non-structs, and run the field loop. -/
def marshalStruct : GoValue → Except MErr (List (String × AttributeValue))
  | VStruct fields => marshalStructFields (VStruct fields) [] fields
  | VPtr (some p) => marshalStruct p
  | VPtr none => .error (.panic "reflect: call of reflect.Value.Interface on zero Value")
  | _ => .error (.goError "marshal struct invalid type")
termination_by v => (sizeOf v, 0)

/-- Field loop of `marshalStruct` (part_001 lines 30-77), with `rv` the
whole struct value and `item` the accumulated map.  The skip switch is
taken verbatim from the source: unexported fields and `-`-named fields
are skipped; an `omitempty` field is skipped when `isZero rv` — the
source tests the WHOLE struct `rv` here, not the field `fv` (line 42);
otherwise a string/ptr/map/slice/interface-kinded field is skipped when
the field itself is zero.  Anonymous struct fields are marshaled
recursively and merged entry by entry; other fields are marshaled with
their special modifier and inserted unless the result is nil. -/
def marshalStructFields (rv : GoValue) (item : List (String × AttributeValue)) :
    List (String × String × Bool × Bool × GoValue) →
      Except MErr (List (String × AttributeValue))
  | [] => .ok item
  | (fname, dtag, anon, exported, fv) :: rest =>
      let fi := fieldInfo fname dtag
      let name := fi.1
      let special := fi.2.1
      let omitempty := fi.2.2
      let kind := kindOf fv
      let skip : Bool :=
        if !exported then true
        else if name = "-" then true
        else if omitempty then isZero rv
        else if kind = .string ∨ kind = .ptr ∨ kind = .map ∨ kind = .slice ∨
            kind = .iface then isZero fv
        else false
      if skip then marshalStructFields rv item rest
      else if kind = .struct ∧ anon then do
        let avs ← marshalStruct fv
        marshalStructFields rv (avs.foldl (fun m kv => mapInsert m kv.1 kv.2) item) rest
      else do
        let av ← marshal fv special
        match av with
        | some a => marshalStructFields rv (mapInsert item name a) rest
        | none => marshalStructFields rv item rest
termination_by fs => (sizeOf fs, 0)

end

/-- Embedding of `marshalSlice` (part_001 lines 210-222): marshal each
value with no special modifier and append only non-nil results — unlike
the list arm of `marshalReflect`, this loop compacts nil results away. -/
def marshalSlice : List GoValue → Except MErr (List AttributeValue)
  | [] => .ok []
  | v :: rest => do
      let av ← marshal v ""
      let avs ← marshalSlice rest
      match av with
      | some a => .ok (a :: avs)
      | none => .ok avs

/-- Model of `types.AttributeDefinition`: attribute name and scalar type
(the scalar type is the string `"S"`, `"N"` or `"B"`). -/
structure AttributeDefinition where
  attributeName : String
  attributeType : String
  deriving DecidableEq

/-- Model of `types.KeySchemaElement`: attribute name and key type (the
key type is the string `"HASH"` or `"RANGE"`, or empty). -/
structure KeySchemaElement where
  attributeName : String
  keyType : String
  deriving DecidableEq

/-- Model of `types.GlobalSecondaryIndex` / `types.LocalSecondaryIndex`
as used by createtable.go: evolving key schema, optional projection
(projection type and non-key attributes), optional provisioned
throughput (read, write; meaningful for global indices only).  The Go
zero value (all fields nil) is `⟨[], none, none⟩`. -/
structure CTIndex where
  keySchema : List KeySchemaElement
  projection : Option (String × List String)
  provisionedThroughput : Option (Int × Int)
  deriving DecidableEq

def CTIndex.zero : CTIndex := ⟨[], none, none⟩

/-- Lookup `m[name]` on a Go map modeled as an association list,
yielding the zero value for an absent key, as Go map indexing does. -/
def idxGet (m : List (String × CTIndex)) (name : String) : CTIndex :=
  ((m.find? fun e => e.1 = name).map Prod.snd).getD CTIndex.zero

/-- Assignment `m[name] = idx` on a Go map modeled as an association
list: replace the binding if present, else append. -/
def idxPut (m : List (String × CTIndex)) (name : String) (idx : CTIndex) :
    List (String × CTIndex) :=
  match m with
  | [] => [(name, idx)]
  | (k, v) :: rest => if k = name then (name, idx) :: rest else (k, v) :: idxPut rest name idx

/-- Model of the `CreateTable` builder struct (createtable.go lines
45-59); the `db` handle is external and not represented. -/
structure CreateTableT where
  tableName : String
  attribs : List AttributeDefinition
  schema : List KeySchemaElement
  globalIndices : List (String × CTIndex)
  localIndices : List (String × CTIndex)
  readUnits : Int
  writeUnits : Int
  streamView : String
  ondemand : Bool
  tags : List (String × String)
  encryption : Option (Bool × String × String)
  err : Option String

/-- Embedding of `setError` (createtable.go lines 426-430): record the
argument only when no error is stored yet. -/
def setError (ct : CreateTableT) (e : Option String) : CreateTableT :=
  if ct.err.isNone then { ct with err := e } else ct

/-- Embedding of `add` (createtable.go lines 408-424): an empty type
records an invalid-key-type error; an attribute name already declared is
returned unchanged (whatever type is supplied); otherwise the
declaration is appended. -/
def ctAdd (ct : CreateTableT) (name typ : String) : CreateTableT :=
  if typ = "" then setError ct (some ("dynamo: invalid type for key: " ++ name))
  else if ct.attribs.any fun attr => attr.attributeName = name then ct
  else { ct with attribs := ct.attribs ++ [⟨name, typ⟩] }

/-- Scan loop of `keyTypeFromTag` (createtable.go lines 487-494):
first recognized role token wins. -/
def keyTypeScan : List String → String
  | [] => ""
  | v :: rest =>
      if v = "hash" ∨ v = "partition" then "HASH"
      else if v = "range" ∨ v = "sort" then "RANGE"
      else keyTypeScan rest

/-- Embedding of `keyTypeFromTag` (createtable.go lines 482-496). -/
def keyTypeFromTag (tag : String) : String :=
  let split := goSplit tag ','
  if split.length ≤ 1 then "" else keyTypeScan split.tail

/-- Unixtime scan of `typeOf` (createtable.go lines 433-440): a
`unixtime` modifier anywhere after the name forces `"N"`. -/
def hasUnixtime (tag : String) : Bool :=
  let split := goSplit tag ','
  split.length > 1 && split.tail.any fun v => v = "unixtime"

/-- Modelled from the spec: `av2iface` is called by `typeOf`
(createtable.go lines 445, 452) but its definition is not among the
provided sources.  Per spec §4.4 and §4.6, it unwraps an attribute value
back to a native-equivalent interface value: Number variants convert to
floating point, String and Boolean pass through natively, Binary becomes
a byte slice, Null becomes the absence-equivalent; collection variants
become the corresponding native collections. -/
def av2iface : AttributeValue → Except String GoValue
  | .S s => .ok (VString s)
  | .N n => .ok (VFloat .float64 n (n = "0"))
  | .B b => .ok (VSlice ⟨.uint8, false⟩ false (b.map fun x => VUnsigned .uint8 x))
  | .BOOL b => .ok (VBool b)
  | .NULL _ => .ok (VIface none)
  | .SS ss => .ok (VSlice ⟨.string, false⟩ false (ss.map VString))
  | .NS ns => .ok (VSlice ⟨.float64, false⟩ false (ns.map fun n => VFloat .float64 n (n = "0")))
  | .BS bs => .ok (VSlice ⟨.slice, false⟩ false
      (bs.map fun b => VSlice ⟨.uint8, false⟩ false (b.map fun x => VUnsigned .uint8 x)))
  | .L l => .ok (VSlice ⟨.iface, false⟩ false (l.filterMap fun x => x.map fun _ => VIface none))
  | .M m => .ok (VMap true false (m.map fun kv => (kv.1, VIface none)))

/-- Structural fallback of a capability-bearing value whose capability
path failed, dispatching on its reflect kind alone (createtable.go lines
461-479).  The slice/array arm needs the element type, which the
capability constructors do not carry; no theorem depends on that
corner. -/
def typeOfKindFallback : GoKind → String
  | .string => "S"
  | .int | .int64 | .int32 | .int16 | .int8 => "N"
  | .float64 | .float32 => "N"
  | .uint | .uint64 | .uint32 | .uint16 | .uint8 => "N"
  | _ => ""

/-- Structural arm of `typeOf` (createtable.go lines 461-479): deref
pointers repeatedly, then string → S, integer and float families → N,
byte slices and arrays → B, anything else empty.  The source derefs the
static pointee type, so it resolves a nil typed pointer too; this
value-level model cannot and returns empty for a nil pointer (no theorem
exercises a nil-pointer key field). -/
def typeOfStructural : GoValue → String
  | VPtr (some p) => typeOfStructural p
  | VPtr none => ""
  | VString _ => "S"
  | VSigned _ _ => "N"
  | VUnsigned _ _ => "N"
  | VFloat _ _ _ => "N"
  | VSlice e _ _ => if e.kind = .uint8 then "B" else ""
  | VTextMarshaler k _ => typeOfKindFallback k
  | VMarshaler k _ => typeOfKindFallback k
  | _ => ""

/-- Recursive call `typeOf(reflect.ValueOf(iface), tag)` made by the
marshaler arm of `typeOf` (createtable.go lines 446, 453), inlined: an
`av2iface` result never carries a marshaler capability, so the recursive
call reduces to the unixtime check plus the structural fallback. -/
def typeOfIface (v : GoValue) (tag : String) : String :=
  if hasUnixtime tag then "N" else typeOfStructural v

/-- Embedding of `typeOf` (createtable.go lines 432-480).  Both the v1
`Marshaler` and the v2 `attributevalue.Marshaler` capabilities are
modeled by `VMarshaler`; a marshaler whose invocation or unwrapping
fails falls through to the structural fallback on its own kind, as in
the source. -/
def typeOf (v : GoValue) (tag : String) : String :=
  if hasUnixtime tag then "N"
  else
    match v with
    | VMarshaler k res =>
        match res with
        | .ok (some av) =>
            match av2iface av with
            | .ok iface => typeOfIface iface tag
            | .error _ => typeOfKindFallback k
        | .ok none => typeOfKindFallback k
        | .error _ => typeOfKindFallback k
    | VTextMarshaler _ _ => "S"
    | w => typeOfStructural w

/-- Shape of a `CreateTable` example value as `from` observes it.  A
struct field is a tuple
`(goFieldName, dynamoTag, indexTags, localIndexTags, anonymous, value)`
where `indexTags` and `localIndexTags` are the results of
`tagLookup(string(field.Tag), "index")` and `"localIndex"` (that parser
is the stdlib `StructTag.Lookup` scan copied at createtable.go lines
506-555; its results are taken as given here), and `value` is the
field's reflect value.  Non-struct leaves carry the `GoValue` that
`typeOf` inspects. -/
inductive CTValue where
  | strukt (fields : List (String × String × List String × List String × Bool × CTValue))
  | ptr (v : Option CTValue)
  | leaf (v : GoValue)

/-- Reflect-kind test `fv.Type().Kind() == reflect.Struct` on a
`CTValue`. -/
def CTValue.isStruct : CTValue → Bool
  | .strukt _ => true
  | _ => false

/-- Embedding of `typeOf` applied to a field of a `CreateTable` example.
A struct-kinded field matches no arm of the structural switch and yields
the empty type; a pointer field derefs to its pointee (capabilities on
pointer values are not modeled — no theorem uses a pointer key
field). -/
def ctTypeOf (v : CTValue) (tag : String) : String :=
  match v with
  | .leaf g => typeOf g tag
  | .strukt _ => if hasUnixtime tag then "N" else ""
  | .ptr p =>
      if hasUnixtime tag then "N"
      else
        match p with
        | some q => ctTypeOf q ""
        | none => ""

/-- Index-membership body of the `from` field loop (createtable.go lines
305-332), shared by the global (`index`) and local (`localIndex`) arms:
declare the attribute, split the membership string into index name and
role (`index[:len(index)-len(keyType)-1]`, modeled with truncating
subtraction where Go would panic on a negative bound), and append a
key-schema entry to that index's evolving schema. -/
def ctAddIndexEntry (local_ : Bool) (name : String) (fval : CTValue) (dtag : String)
    (ct : CreateTableT) (idxTag : String) : CreateTableT :=
  let ct1 := ctAdd ct name (ctTypeOf fval dtag)
  let keyType := keyTypeFromTag idxTag
  let indexName := idxTag.take (idxTag.length - keyType.length - 1)
  if local_ then
    let idx := idxGet ct1.localIndices indexName
    let idx2 := { idx with keySchema := idx.keySchema ++ [⟨name, keyType⟩] }
    { ct1 with localIndices := idxPut ct1.localIndices indexName idx2 }
  else
    let idx := idxGet ct1.globalIndices indexName
    let idx2 := { idx with keySchema := idx.keySchema ++ [⟨name, keyType⟩] }
    { ct1 with globalIndices := idxPut ct1.globalIndices indexName idx2 }

mutual

/-- Embedding of `from` (createtable.go lines 269-336): structs run the
field loop, pointers are dereferenced (a nil pointer derefs to an
invalid value, taking the default arm), anything else is the
must-be-a-struct error.  The error is the function's return value; state
updates live in the returned builder. -/
def ctFrom (ct : CreateTableT) (v : CTValue) : CreateTableT × Option String :=
  match v with
  | .strukt fields => ctFromFields ct fields
  | .ptr (some p) => ctFrom ct p
  | .ptr none => (ct, some "dynamo: CreateTable example must be a struct")
  | .leaf _ => (ct, some "dynamo: CreateTable example must be a struct")
termination_by (sizeOf v, 1)

/-- Field loop of `from` (createtable.go lines 278-333): skip fields
named `-`; recurse into anonymous struct fields (and then still process
that field's own tags — the source has no `continue` there); then the
primary-key, global-index and local-index arms in order. -/
def ctFromFields (ct : CreateTableT) :
    List (String × String × List String × List String × Bool × CTValue) →
      CreateTableT × Option String
  | [] => (ct, none)
  | (fname, dtag, gsiTags, lsiTags, anon, fval) :: rest =>
      let name := (fieldInfo fname dtag).1
      if name = "-" then ctFromFields ct rest
      else
        let step1 : CreateTableT × Option String :=
          if fval.isStruct && anon then ctFrom ct fval else (ct, none)
        match step1 with
        | (ct1, some e) => (ct1, some e)
        | (ct1, none) =>
            let keyType := keyTypeFromTag dtag
            let ct2 :=
              if keyType ≠ "" then
                let ct' := ctAdd ct1 name (ctTypeOf fval dtag)
                { ct' with schema := ct'.schema ++ [⟨name, keyType⟩] }
              else ct1
            let ct3 := gsiTags.foldl (ctAddIndexEntry false name fval dtag) ct2
            let ct4 := lsiTags.foldl (ctAddIndexEntry true name fval dtag) ct3
            ctFromFields ct4 rest
termination_by fs => (sizeOf fs, 0)

end

/-- Initial draft state the `CreateTable` constructor builds
(createtable.go lines 76-85): one read and write unit, empty schema,
index maps and tags, no error. -/
def initialDraft (name : String) : CreateTableT :=
  { tableName := name, attribs := [], schema := [], globalIndices := [],
    localIndices := [], readUnits := 1, writeUnits := 1, streamView := "",
    ondemand := false, tags := [], encryption := none, err := none }

/-- Embedding of the `CreateTable` constructor (createtable.go lines
75-89): initialize the draft and record `from`'s error through
`setError`. -/
def dbCreateTable (name : String) (ex : CTValue) : CreateTableT :=
  let r := ctFrom (initialDraft name) ex
  setError r.1 r.2

/-- Embedding of `OnDemand` (createtable.go lines 93-96). -/
def ctOnDemand (ct : CreateTableT) (enabled : Bool) : CreateTableT :=
  { ct with ondemand := enabled }

/-- Embedding of `Provision` (createtable.go lines 100-103). -/
def ctProvision (ct : CreateTableT) (readUnits writeUnits : Int) : CreateTableT :=
  { ct with readUnits := readUnits, writeUnits := writeUnits }

/-- Embedding of `ProvisionIndex` (createtable.go lines 107-115): read
the (possibly zero) entry, set its throughput, store it back. -/
def ctProvisionIndex (ct : CreateTableT) (index : String) (readUnits writeUnits : Int) :
    CreateTableT :=
  let idx := idxGet ct.globalIndices index
  let idx2 := { idx with provisionedThroughput := some (readUnits, writeUnits) }
  { ct with globalIndices := idxPut ct.globalIndices index idx2 }

/-- Embedding of `Stream` (createtable.go lines 119-122). -/
def ctStream (ct : CreateTableT) (view : String) : CreateTableT :=
  { ct with streamView := view }

/-- Include-attribute dedupe loop of `Project` (createtable.go lines
132-140). -/
def projectInclude (includeAttribs : List String) : List String :=
  includeAttribs.foldl (fun acc a => if acc.contains a then acc else acc ++ [a]) []

/-- Embedding of `Project` (createtable.go lines 126-152): set the
projection on the named global or local index, or record a no-such-index
error. -/
def ctProject (ct : CreateTableT) (index : String) (projection : String)
    (includeAttribs : List String) : CreateTableT :=
  let proj : String × List String :=
    (projection, if projection = "INCLUDE" then projectInclude includeAttribs else [])
  if (ct.globalIndices.find? fun e => e.1 = index).isSome then
    let idx := idxGet ct.globalIndices index
    let idx2 := { idx with projection := some proj }
    { ct with globalIndices := idxPut ct.globalIndices index idx2 }
  else if (ct.localIndices.find? fun e => e.1 = index).isSome then
    let idx := idxGet ct.localIndices index
    let idx2 := { idx with projection := some proj }
    { ct with localIndices := idxPut ct.localIndices index idx2 }
  else
    setError ct (some ("dynamo: no such index: " ++ index))

/-- Embedding of `Tag` (createtable.go lines 207-220): overwrite the
value of an existing key in place, else append. -/
def ctTag (ct : CreateTableT) (key value : String) : CreateTableT :=
  if ct.tags.any fun t => t.1 = key then
    { ct with tags := ct.tags.map fun t => if t.1 = key then (key, value) else t }
  else
    { ct with tags := ct.tags ++ [(key, value)] }

/-- Embedding of `sortKeySchemas` (createtable.go lines 498-502): the
source unconditionally reads `schemas[0]` (and `schemas[1]` when
swapping), so an empty (or singleton range-first) schema is an
index-out-of-range panic, modeled as `none`. -/
def sortKeySchemas (schemas : List KeySchemaElement) : Option (List KeySchemaElement) :=
  match schemas with
  | [] => none
  | s0 :: rest =>
      if s0.keyType = "RANGE" then
        match rest with
        | [] => none
        | s1 :: rest2 => some (s1 :: s0 :: rest2)
      else some (s0 :: rest)

/-- Model of `dynamodb.CreateTableInput` as assembled by `input`: the
fields the embedded code populates.  Indexes carry (name, sorted key
schema, projection, and for global indexes the throughput). -/
structure CreateTableInput where
  tableName : String
  attributeDefinitions : List AttributeDefinition
  keySchema : List KeySchemaElement
  localSecondaryIndexes : List (String × List KeySchemaElement × (String × List String))
  globalSecondaryIndexes :
    List (String × List KeySchemaElement × (String × List String) × Option (Int × Int))
  billingModePayPerRequest : Bool
  provisionedThroughput : Option (Int × Int)
  streamSpecification : Option String
  tags : List (String × String)
  encryption : Option (Bool × String × String)

/-- Local-index finalization loop of `input` (createtable.go lines
362-380): default ALL projection, pad a single-entry key schema with the
table's (already sorted) hash key, sort, collect.  `none` models the
panic `sortKeySchemas` raises on an unsortable schema. -/
def ctInputLSIs (sortedSchema : List KeySchemaElement) :
    List (String × CTIndex) →
      Option (List (String × List KeySchemaElement × (String × List String)))
  | [] => some []
  | (nm, idx) :: rest => do
    let proj := idx.projection.getD ("ALL", [])
    let ks0 :=
      if idx.keySchema.length = 1 then sortedSchema.take 1 ++ idx.keySchema
      else idx.keySchema
    let ks ← sortKeySchemas ks0
    let tl ← ctInputLSIs sortedSchema rest
    some ((nm, ks, proj) :: tl)

/-- Global-index finalization loop of `input` (createtable.go lines
381-401): default ALL projection, clear throughput under on-demand
billing (else default it to one unit each), sort, collect. -/
def ctInputGSIs (ondemand : Bool) :
    List (String × CTIndex) →
      Option (List (String × List KeySchemaElement × (String × List String) × Option (Int × Int)))
  | [] => some []
  | (nm, idx) :: rest => do
    let proj := idx.projection.getD ("ALL", [])
    let tput := if ondemand then none else some (idx.provisionedThroughput.getD (1, 1))
    let ks ← sortKeySchemas idx.keySchema
    let tl ← ctInputGSIs ondemand rest
    some ((nm, ks, proj, tput) :: tl)

/-- Embedding of `input` (createtable.go lines 338-406): sort the
primary key schema in place (panicking on an empty schema), default
every index to an ALL projection, pad a single-entry local index schema
with the table's hash key, sort every index schema, clear global index
throughput under on-demand billing (defaulting it to one unit each
otherwise), and attach tags only when at least one was set.  `none`
models a panic inside the finalization. -/
def ctInput (ct : CreateTableT) : Option CreateTableInput := do
  let sortedSchema ← sortKeySchemas ct.schema
  let lsis ← ctInputLSIs sortedSchema ct.localIndices
  let gsis ← ctInputGSIs ct.ondemand ct.globalIndices
  pure
    { tableName := ct.tableName
      attributeDefinitions := ct.attribs
      keySchema := sortedSchema
      localSecondaryIndexes := lsis
      globalSecondaryIndexes := gsis
      billingModePayPerRequest := ct.ondemand
      provisionedThroughput := if ct.ondemand then none else some (ct.readUnits, ct.writeUnits)
      streamSpecification := if ct.streamView ≠ "" then some ct.streamView else none
      tags := ct.tags
      encryption := ct.encryption }

/-- Observable outcome of `RunWithContext` (createtable.go lines
242-252): return the sticky error before building any request, panic
inside `input`, or issue the finalized request to the transport. -/
inductive RunOutcome where
  | storedError (e : String)
  | panicked
  | issued (inp : CreateTableInput)

/-- Embedding of `RunWithContext` (createtable.go lines 242-252): a
non-nil sticky error is returned first; otherwise the request is
finalized by `input` (which can panic) and handed to the retrying
transport. -/
def runWithContext (ct : CreateTableT) : RunOutcome :=
  match ct.err with
  | some e => .storedError e
  | none =>
      match ctInput ct with
      | none => .panicked
      | some inp => .issued inp

/-- Model of a transport error as `canRetry` observes it:
`responseStatus` is the HTTP status when `errors.As` resolves a
`*http.ResponseError` (else `none`), and `apiErrorCode` is the API error
code when `errors.As` resolves a `smithy.APIError` (else `none`). -/
structure AWSError where
  responseStatus : Option Nat
  apiErrorCode : Option String
  deriving DecidableEq

/-- Embedding of `canRetry` (part_000 lines 51-69): retryable iff the
status is 500 or 503, or the status is 400 and the API error code is one
of the two recognized throttling codes. -/
def canRetry (err : AWSError) : Bool :=
  match err.responseStatus with
  | some status =>
      if status = 500 ∨ status = 503 then true
      else if status = 400 then
        match err.apiErrorCode with
        | some code =>
            code == "ProvisionedThroughputExceededException" ||
              code == "ThrottlingException"
        | none => false
      else false
  | none => false

/-- Terminal state of the retry loop: success, a returned error, or
model fuel exhaustion (the Go loop itself has no iteration bound beyond
backoff and context). -/
inductive RetryOutcome where
  | ok
  | failed (e : AWSError)
  | fuelOut
  deriving DecidableEq

/-- Embedding of `retry` (part_000 lines 28-49) over explicit oracles:
`f i` is the error of attempt `i` (`none` = success), `next i` is the
`NextBackOff` answer before sleep `i` (`none` = `backoff.Stop`), and
`sleep i` is the `SleepWithContext` outcome (`some e` = context
cancelled with error `e`).  Returns the outcome together with the
number of attempts (invocations of `f`) made.  Each loop iteration:
run `f`; a success returns; a non-retryable error returns; an exhausted
backoff returns the error; a cancelled sleep returns the cancellation;
otherwise loop. -/
def retryAux (f : Nat → Option AWSError) (next : Nat → Option Nat)
    (sleep : Nat → Option AWSError) : Nat → Nat → RetryOutcome × Nat
  | 0, _ => (.fuelOut, 0)
  | fuel + 1, i =>
      match f i with
      | none => (.ok, 1)
      | some e =>
          if canRetry e then
            match next i with
            | none => (.failed e, 1)
            | some _ =>
                match sleep i with
                | some ce => (.failed ce, 1)
                | none =>
                    let r := retryAux f next sleep fuel (i + 1)
                    (r.1, r.2 + 1)
          else (.failed e, 1)

/-- The retry loop started at attempt 0. -/
def retry (f : Nat → Option AWSError) (next : Nat → Option Nat)
    (sleep : Nat → Option AWSError) (fuel : Nat) : RetryOutcome × Nat :=
  retryAux f next sleep fuel 0

/-- Key-schema entries a field list contributes through the primary-key
arm of the `from` loop: the resolved name paired with the tag's key
type, for every field neither skipped as `-` nor key-type-free.  Proven
below (`ctFromFields_schema`) to characterize the schema `from`
accumulates; used to state C5 for structs with arbitrary non-key
fields. -/
def keyEntriesOf : List (String × String × List String × List String × Bool × CTValue) →
    List KeySchemaElement
  | [] => []
  | (fname, dtag, _, _, _, _) :: rest =>
      let name := (fieldInfo fname dtag).1
      let kt := keyTypeFromTag dtag
      if name = "-" then keyEntriesOf rest
      else if kt = "" then keyEntriesOf rest
      else ⟨name, kt⟩ :: keyEntriesOf rest

/-- Status classification of C6 stated as the claim words it: status 500
or 503, or status 400 carrying one of the two recognized throttling
codes. -/
def retryableStatus (e : AWSError) : Prop :=
  e.responseStatus = some 500 ∨ e.responseStatus = some 503 ∨
    (e.responseStatus = some 400 ∧
      (e.apiErrorCode = some "ProvisionedThroughputExceededException" ∨
        e.apiErrorCode = some "ThrottlingException"))

/-- Freshly initialized draft with no example-derived state, as the
`CreateTable` constructor builds before `from` runs. -/
def ctEmptyDraft : CreateTableT := initialDraft "t"

/-- Draft with a stored error, for the C7 witness. -/
def c7wCT : CreateTableT := { ctEmptyDraft with err := some "boom" }

/-- Fields of the spec §8 scenario struct
`{ID string `dynamo:"ID,hash"`; Seq int64 `dynamo:",range"`}`, for the
C5 witness. -/
def c5wFields : List (String × String × List String × List String × Bool × CTValue) :=
  [("ID", "ID,hash", [], [], false, .leaf (VString "")),
   ("Seq", ",range", [], [], false, .leaf (VSigned .int64 0))]

/-- Finalized request of the C5 witness scenario. -/
def c5wInput : CreateTableInput :=
  { tableName := "UserActions"
    attributeDefinitions := [⟨"ID", "S"⟩, ⟨"Seq", "N"⟩]
    keySchema := [⟨"ID", "HASH"⟩, ⟨"Seq", "RANGE"⟩]
    localSecondaryIndexes := []
    globalSecondaryIndexes := []
    billingModePayPerRequest := false
    provisionedThroughput := some (1, 1)
    streamSpecification := none
    tags := []
    encryption := none }

/-- Transport error with HTTP status 500, for the C6 witness. -/
def c6wErr : AWSError := ⟨some 500, none⟩

/-! Theorems settling the claims. -/

/-- C1: the claim states that for every struct value, a field tagged
`omitempty` holding its kind's zero value is absent from the marshaled
Map regardless of the other fields' values.  The source instead tests
`isZero(rv)` — the WHOLE struct — at part_001 line 42 where the adjacent
auto-omission case tests the field `fv`, so a zero `omitempty` field
inside an otherwise nonzero struct is marshaled anyway: below, field `A`
is zero and tagged `omitempty`, yet the marshaled Map carries the entry
`"A" ↦ Number "0"`. -/
theorem c1_omitempty_zero_field_still_marshaled :
    isZero (VSigned .int 0) = true ∧
    marshalStruct (VStruct [("A", ",omitempty", false, true, VSigned .int 0),
        ("B", "", false, true, VSigned .int 1)]) =
      .ok [("A", .N "0"), ("B", .N "1")] := by
  refine ⟨rfl, ?_⟩
  simp [marshalStruct, marshalStructFields, marshal, marshalReflect, fieldInfo, goSplit,
    goSplitAux, isZero, isZeroFields, kindOf, mapInsert, SignedK.kind, bind, Except.bind]
  exact ⟨rfl, rfl⟩

/-- C2 counterexample: the claim states that every integer-family value,
signed or unsigned, marshals to a Number and never to an
unsupported-type error; but the `marshalReflect` switch (part_001 line
110) lists only the signed kinds, so a plain `uint` value falls to the
default arm and errors. -/
theorem c2_counterexample_uint_errors :
    marshal (VUnsigned .uint 1) "" =
      .error (.goError "dynamo marshal: unknown type uint") := by
  simp [marshal, marshalReflect, kindOf, UnsignedK.kind, GoKind.typeString]

/-- C2 (amended): every signed integer-family value marshals to a Number
carrying its base-10 decimal text and every float-family value to a
Number carrying its formatted decimal text, with no unsupported-type
error; unsigned integer kinds are not handled and yield an unknown-type
error. -/
theorem c2_amended_signed_integers_and_floats (sp : String) :
    (∀ (k : SignedK) (n : Int), marshal (VSigned k n) sp = .ok (some (.N (toString n)))) ∧
    (∀ (k : FloatK) (t : String) (z : Bool), marshal (VFloat k t z) sp = .ok (some (.N t))) ∧
    (∀ (k : UnsignedK) (n : Nat),
      marshal (VUnsigned k n) sp =
        .error (.goError ("dynamo marshal: unknown type " ++ k.kind.typeString))) := by
  refine ⟨fun k n => ?_, fun k t z => ?_, fun k n => ?_⟩ <;>
    simp [marshal, marshalReflect, kindOf]

/-- C2 witness: the amended behavior at concrete values: a negative
`int64`, a float, and a `uint8` that errors. -/
theorem c2_amended_witness :
    marshal (VSigned .int64 (-7)) "" = .ok (some (.N (toString (-7 : Int)))) ∧
    marshal (VFloat .float64 "1.5" false) "" = .ok (some (.N "1.5")) ∧
    marshal (VUnsigned .uint8 3) "" =
      .error (.goError ("dynamo marshal: unknown type " ++ UnsignedK.uint8.kind.typeString)) := by
  have h := c2_amended_signed_integers_and_floats ""
  exact ⟨h.1 .int64 (-7), h.2.1 .float64 "1.5" false, h.2.2 .uint8 3⟩

/-- C3: the claim states that string-element sets and
text-marshaler-element sets marshal to the StringSet (`SS`) variant and
that NumberSet (`NS`) is produced only for integer- and float-family
elements.  The source populates the `NS` field in all of these arms
(part_001 lines 175 and 196): a string set and a text-marshaler set both
come back as `NS`, the same field as the integer set. -/
theorem c3_sets_marshal_into_number_set_field :
    marshal (VSlice ⟨.string, false⟩ false [VString "a", VString "b"]) "set" =
      .ok (some (.NS ["a", "b"])) ∧
    marshal (VSlice ⟨.struct, true⟩ false [VTextMarshaler .struct (.ok "x")]) "set" =
      .ok (some (.NS ["x"])) ∧
    marshal (VSlice ⟨.int, false⟩ false [VSigned .int 1, VSigned .int 2, VSigned .int 3])
        "set" =
      .ok (some (.NS ["1", "2", "3"])) := by
  refine ⟨?_, ?_, ?_⟩
  · simp [marshal, marshalReflect, marshalSet, setStrings, bind, Except.bind]
  · simp [marshal, marshalReflect, marshalSet, setTexts, bind, Except.bind]
  · simp [marshal, marshalReflect, marshalSet, setInts, bind, Except.bind]
    exact ⟨rfl, rfl, rfl⟩

/-- C4: the claim states that a slice whose element type is the byte
type marshals to the Binary variant, never a list or set and never an
error.  The source compares the element kind against `reflect.Int8`
(part_001 line 139) while Go's `byte` is `uint8`, so a `[]byte` misses
the Binary arm: without a modifier it is treated as a list whose `uint8`
elements hit the unknown-type error, and with the `set` modifier it hits
the unknown-set-type error. -/
theorem c4_byte_slice_never_reaches_binary :
    marshal (VSlice ⟨.uint8, false⟩ false [VUnsigned .uint8 1, VUnsigned .uint8 2]) "" =
      .error (.goError "dynamo marshal: unknown type uint8") ∧
    marshal (VSlice ⟨.uint8, false⟩ false [VUnsigned .uint8 1]) "set" =
      .error (.goError "dynamo marshal: unknown type for sets []uint8") := by
  constructor <;>
    simp [marshal, marshalReflect, marshalSet, marshalSliceElems, kindOf, UnsignedK.kind,
      GoKind.typeString, bind, Except.bind]

/-- C9 counterexample: the claim states that an element whose marshal
result is the nil outcome is omitted from the List.  In the slice arm of
`marshalReflect` the loop appends the result with no nil check (part_001
line 154), so a one-element slice of a text marshaler producing empty
text — whose element marshal result is nil, second conjunct — yields a
List containing one nil placeholder entry rather than an empty List. -/
theorem c9_counterexample_nil_entry_kept :
    marshal (VSlice ⟨.struct, true⟩ false [VTextMarshaler .struct (.ok "")]) "" =
      .ok (some (.L [none])) ∧
    marshal (VTextMarshaler .struct (.ok "")) "" = .ok none := by
  constructor <;> simp [marshal, marshalReflect, marshalSliceElems, bind, Except.bind]

/-- C9 (amended): the slice arm of `marshalReflect` builds the List from
the element loop verbatim, one entry per element in input order with nil
results kept as nil entries (so the List length always equals the slice
length); only the standalone `marshalSlice` helper omits nil element
results, its output being exactly the non-nil entries of the loop's
output in order. -/
theorem c9_amended_list_keeps_nil_entries (vs : List GoValue) :
    (∀ avs, marshalSliceElems vs = .ok avs → avs.length = vs.length) ∧
    (∀ avs, marshalSliceElems vs = .ok avs → marshalSlice vs = .ok (avs.filterMap id)) ∧
    (∀ (e : GoElemType) (nl : Bool) (sp : String), e.kind ≠ .int8 → sp ≠ "set" →
      marshalReflect (VSlice e nl vs) sp =
        (marshalSliceElems vs).map fun avs => some (.L avs)) := by
  refine ⟨?_, ?_, fun e nl sp hk hsp => ?_⟩
  · induction vs with
    | nil => intro avs h; simp [marshalSliceElems] at h; simp [← h]
    | cons v rest ih =>
        intro avs h
        simp only [marshalSliceElems, bind, Except.bind] at h
        cases hv : marshal v "" with
        | error e => simp [hv] at h
        | ok av =>
            simp only [hv] at h
            cases hr : marshalSliceElems rest with
            | error e => simp [hr] at h
            | ok tl =>
                simp only [hr] at h
                cases h
                simp [ih tl hr]
  · induction vs with
    | nil =>
        intro avs h
        simp only [marshalSliceElems] at h
        cases h
        simp [marshalSlice]
    | cons v rest ih =>
        intro avs h
        simp only [marshalSliceElems, bind, Except.bind] at h
        cases hv : marshal v "" with
        | error e => simp [hv] at h
        | ok av =>
            simp only [hv] at h
            cases hr : marshalSliceElems rest with
            | error e => simp [hr] at h
            | ok tl =>
                simp only [hr] at h
                cases h
                cases av with
                | none => simp [marshalSlice, hv, hr, bind, Except.bind, ih tl hr]
                | some a => simp [marshalSlice, hv, hr, bind, Except.bind, ih tl hr]
  · simp only [marshalReflect, hk, hsp, if_neg]
    cases hr : marshalSliceElems vs with
    | error e => simp [hr, bind, Except.bind, Except.map]
    | ok avs => simp [hr, bind, Except.bind, Except.map]

/-- C9 witness: the amended theorem applied to the concrete one-element
slice of an empty-text text marshaler: the loop keeps the nil entry
(length 1) while `marshalSlice` compacts it away. -/
theorem c9_amended_witness :
    marshalSliceElems [VTextMarshaler .struct (.ok "")] = .ok [none] ∧
    ([(none : Option AttributeValue)].length = 1) ∧
    marshalSlice [VTextMarshaler .struct (.ok "")] =
      .ok (([none] : List (Option AttributeValue)).filterMap id) := by
  have he : marshalSliceElems [VTextMarshaler .struct (.ok "")] = .ok [none] := by
    simp [marshalSliceElems, marshal, bind, Except.bind]
  exact ⟨he, rfl,
    (c9_amended_list_keeps_nil_entries [VTextMarshaler .struct (.ok "")]).2.1 [none] he⟩

/-- Neither branch of `setError` changes the schema. -/
theorem setError_schema (ct : CreateTableT) (e : Option String) :
    (setError ct e).schema = ct.schema := by
  unfold setError; split <;> rfl

/-- Neither branch of `setError` changes the attribute declarations. -/
theorem setError_attribs (ct : CreateTableT) (e : Option String) :
    (setError ct e).attribs = ct.attribs := by
  unfold setError; split <;> rfl

/-- `add` never changes the schema. -/
theorem ctAdd_schema (ct : CreateTableT) (name typ : String) :
    (ctAdd ct name typ).schema = ct.schema := by
  unfold ctAdd; split_ifs <;> simp [setError_schema]

/-- An index-membership registration never changes the primary key
schema. -/
theorem ctAddIndexEntry_schema (b : Bool) (name : String) (fval : CTValue) (dtag : String)
    (ct : CreateTableT) (idxTag : String) :
    (ctAddIndexEntry b name fval dtag ct idxTag).schema = ct.schema := by
  unfold ctAddIndexEntry; split_ifs <;> simp [ctAdd_schema]

/-- Folding index-membership registrations over any tag list never
changes the primary key schema. -/
theorem foldl_ctAddIndexEntry_schema (b : Bool) (name : String) (fval : CTValue)
    (dtag : String) (tags : List String) :
    ∀ ct : CreateTableT,
      (tags.foldl (ctAddIndexEntry b name fval dtag) ct).schema = ct.schema := by
  induction tags with
  | nil => intro ct; rfl
  | cons t rest ih => intro ct; simp [List.foldl_cons, ih, ctAddIndexEntry_schema]

/-- Unfolding of `from` on a struct example. -/
theorem ctFrom_strukt (ct : CreateTableT)
    (fields : List (String × String × List String × List String × Bool × CTValue)) :
    ctFrom ct (.strukt fields) = ctFromFields ct fields := by
  simp [ctFrom]

/-- The field loop of `from` over anonymous-free fields always succeeds
and appends exactly the declared key entries to the schema, in
declaration order. -/
theorem ctFromFields_schema
    (fields : List (String × String × List String × List String × Bool × CTValue))
    (h : ∀ f ∈ fields, f.2.2.2.2.1 = false) :
    ∀ ct : CreateTableT, (ctFromFields ct fields).2 = none ∧
      (ctFromFields ct fields).1.schema = ct.schema ++ keyEntriesOf fields := by
  induction fields with
  | nil => intro ct; simp [ctFromFields, keyEntriesOf]
  | cons f rest ih =>
      obtain ⟨fname, dtag, gsi, lsi, anon, fval⟩ := f
      have hanon : anon = false := h _ (List.mem_cons_self _ _)
      have hrest := fun g hg => h g (List.mem_cons_of_mem _ hg)
      subst hanon
      intro ct
      by_cases hname : (fieldInfo fname dtag).1 = "-"
      · simp only [ctFromFields, keyEntriesOf, hname, if_true, Bool.and_false]
        simpa using ih hrest ct
      · by_cases hkt : keyTypeFromTag dtag = ""
        · simp only [ctFromFields, keyEntriesOf, hname, hkt, if_false, if_true,
            Bool.and_false, ne_eq, not_true_eq_false]
          refine ⟨?_, ?_⟩ <;> simp [ih hrest, foldl_ctAddIndexEntry_schema]
        · simp only [ctFromFields, keyEntriesOf, hname, hkt, if_false, Bool.and_false,
            ne_eq, not_false_eq_true, if_true]
          refine ⟨?_, ?_⟩ <;>
            simp [ih hrest, foldl_ctAddIndexEntry_schema, ctAdd_schema, setError_schema]

/-- A successful `RunWithContext` issuance means no sticky error and a
successful finalization producing that input. -/
theorem runWithContext_issued (ct : CreateTableT) (inp : CreateTableInput)
    (h : runWithContext ct = .issued inp) : ct.err = none ∧ ctInput ct = some inp := by
  unfold runWithContext at h
  cases he : ct.err with
  | some e => rw [he] at h; cases h
  | none =>
      rw [he] at h
      cases hi : ctInput ct with
      | none => rw [hi] at h; cases h
      | some i => rw [hi] at h; injection h with h2; subst h2; exact ⟨rfl, rfl⟩

/-- The key schema of a finalized request is exactly the sorted draft
schema. -/
theorem ctInput_keySchema (ct : CreateTableT) (inp : CreateTableInput)
    (h : ctInput ct = some inp) : sortKeySchemas ct.schema = some inp.keySchema := by
  unfold ctInput at h
  cases hs : sortKeySchemas ct.schema with
  | none => simp [hs, bind, Option.bind] at h
  | some sorted =>
      simp only [hs, bind, Option.bind] at h
      cases hl : ctInputLSIs sorted ct.localIndices with
      | none => simp [hl] at h
      | some lsis =>
          simp only [hl] at h
          cases hg : ctInputGSIs ct.ondemand ct.globalIndices with
          | none => simp [hg] at h
          | some gsis =>
              simp only [hg, pure] at h
              cases h
              rfl

/-- C5: for every struct whose declared key annotations are exactly one
hash-role field and one range-role field, in either declaration order
(and with arbitrary other non-key fields, none anonymous), whenever
`RunWithContext` issues a finalized create-table request, that request's
primary key schema has the hash-type entry at index 0 and the range-type
entry at index 1. -/
theorem c5_hash_entry_precedes_range (tname nh nr : String)
    (fields : List (String × String × List String × List String × Bool × CTValue))
    (inp : CreateTableInput)
    (hanon : ∀ f ∈ fields, f.2.2.2.2.1 = false)
    (hkeys : keyEntriesOf fields = [⟨nh, "HASH"⟩, ⟨nr, "RANGE"⟩] ∨
      keyEntriesOf fields = [⟨nr, "RANGE"⟩, ⟨nh, "HASH"⟩])
    (hrun : runWithContext (dbCreateTable tname (.strukt fields)) = .issued inp) :
    inp.keySchema = [⟨nh, "HASH"⟩, ⟨nr, "RANGE"⟩] := by
  have hsch : (dbCreateTable tname (.strukt fields)).schema = keyEntriesOf fields := by
    unfold dbCreateTable
    rw [setError_schema, ctFrom_strukt]
    simpa [initialDraft] using (ctFromFields_schema fields hanon (initialDraft tname)).2
  obtain ⟨herr, hinp⟩ := runWithContext_issued _ _ hrun
  have hks := ctInput_keySchema _ _ hinp
  rw [hsch] at hks
  rcases hkeys with hk | hk <;> rw [hk] at hks <;>
    simp only [sortKeySchemas] at hks <;> simp at hks <;> exact hks.symm

/-- C5 witness: the spec §8 scenario struct, hash declared first; the
pipeline issues a request whose key schema is `[{ID, HASH}, {Seq,
RANGE}]` (and, as in the spec scenario, attribute types `{ID: S, Seq:
N}`). -/
theorem c5_witness :
    runWithContext (dbCreateTable "UserActions" (.strukt c5wFields)) = .issued c5wInput ∧
    c5wInput.keySchema = [⟨"ID", "HASH"⟩, ⟨"Seq", "RANGE"⟩] ∧
    c5wInput.attributeDefinitions = [⟨"ID", "S"⟩, ⟨"Seq", "N"⟩] := by
  have h1 : ctFromFields (initialDraft "UserActions") c5wFields =
      ({ initialDraft "UserActions" with
          attribs := [⟨"ID", "S"⟩, ⟨"Seq", "N"⟩],
          schema := [⟨"ID", "HASH"⟩, ⟨"Seq", "RANGE"⟩] }, none) := by
    simp only [c5wFields, ctFromFields]
    rfl
  have hrun : runWithContext (dbCreateTable "UserActions" (.strukt c5wFields)) =
      .issued c5wInput := by
    simp only [dbCreateTable]
    rw [ctFrom_strukt, h1]
    rfl
  exact ⟨hrun,
    c5_hash_entry_precedes_range "UserActions" "ID" "Seq" c5wFields c5wInput
      (by intro f hf; simp [c5wFields] at hf; rcases hf with h | h <;> simp [h])
      (Or.inl (by rfl))
      hrun,
    rfl⟩

/-- The field loop of `from` is inert on fields with no key role, no
index memberships and no anonymous embedding: the draft is returned
unchanged with no error. -/
theorem ctFromFields_inert
    (fields : List (String × String × List String × List String × Bool × CTValue))
    (h : ∀ f ∈ fields, f.2.2.2.2.1 = false ∧ keyTypeFromTag f.2.1 = "" ∧
      f.2.2.1 = [] ∧ f.2.2.2.1 = []) :
    ∀ ct : CreateTableT, ctFromFields ct fields = (ct, none) := by
  induction fields with
  | nil => intro ct; simp [ctFromFields]
  | cons f rest ih =>
      obtain ⟨fname, dtag, gsi, lsi, anon, fval⟩ := f
      obtain ⟨hanon, hkt, hgsi, hlsi⟩ := h _ (List.mem_cons_self _ _)
      have hrest := fun g hg => h g (List.mem_cons_of_mem _ hg)
      subst hanon; subst hgsi; subst hlsi
      intro ct
      by_cases hname : (fieldInfo fname dtag).1 = "-" <;>
        simp [ctFromFields, hname, hkt, ih hrest ct]

/-- C10: a `CreateTable` example struct declaring no hash or range key
(and no index memberships) records no construction error, and
`RunWithContext` reaches `input`, whose `sortKeySchemas(ct.schema)`
indexes element 0 of the empty key schema — a panic, not a returned
error. -/
theorem c10_keyless_struct_panics_at_run (tname : String)
    (fields : List (String × String × List String × List String × Bool × CTValue))
    (h : ∀ f ∈ fields, f.2.2.2.2.1 = false ∧ keyTypeFromTag f.2.1 = "" ∧
      f.2.2.1 = [] ∧ f.2.2.2.1 = []) :
    (dbCreateTable tname (.strukt fields)).err = none ∧
    runWithContext (dbCreateTable tname (.strukt fields)) = .panicked := by
  have hct : dbCreateTable tname (.strukt fields) = initialDraft tname := by
    unfold dbCreateTable
    rw [ctFrom_strukt, ctFromFields_inert fields h]
    simp [setError, initialDraft]
  rw [hct]
  constructor
  · rfl
  · simp [runWithContext, ctInput, sortKeySchemas, initialDraft, bind, Option.bind]

/-- C10 witness: a one-field struct with no key annotations; the draft
carries no error and running it panics. -/
theorem c10_witness :
    (dbCreateTable "T" (.strukt [("A", "", [], [], false, .leaf (VBool false))])).err =
      none ∧
    runWithContext
        (dbCreateTable "T" (.strukt [("A", "", [], [], false, .leaf (VBool false))])) =
      .panicked :=
  c10_keyless_struct_panics_at_run "T" [("A", "", [], [], false, .leaf (VBool false))]
    (by intro f hf; simp at hf; subst hf; exact ⟨rfl, rfl, rfl, rfl⟩)

/-- C7: once the draft's sticky error slot is set, `setError` — the only
way any fluent operation records an error — never overwrites it (so any
further sequence of recordings keeps the first error), the
error-recording fluent operations `Project` and `add` keep it, and
`RunWithContext` returns the stored error before building or issuing any
request. -/
theorem c7_first_error_wins (ct : CreateTableT) (e0 : String) (h : ct.err = some e0) :
    (∀ e, (setError ct e).err = some e0) ∧
    (∀ es : List (Option String), (es.foldl setError ct).err = some e0) ∧
    (∀ idx proj inc, (ctProject ct idx proj inc).err = some e0) ∧
    (∀ n t, (ctAdd ct n t).err = some e0) ∧
    runWithContext ct = .storedError e0 := by
  have hset : ∀ ct' : CreateTableT, ct'.err = some e0 →
      ∀ e, (setError ct' e).err = some e0 := by
    intro ct' h' e
    simp [setError, h']
  have hfold : ∀ (es : List (Option String)) (ct' : CreateTableT), ct'.err = some e0 →
      (es.foldl setError ct').err = some e0 := by
    intro es
    induction es with
    | nil => intro ct' h'; exact h'
    | cons e rest ih => intro ct' h'; exact ih _ (hset ct' h' e)
  refine ⟨hset ct h, fun es => hfold es ct h, ?_, ?_, ?_⟩
  · intro idx proj inc
    unfold ctProject
    split_ifs <;> first | exact h | exact hset ct h _
  · intro n t
    unfold ctAdd
    split_ifs <;> first | exact h | exact hset ct h _
  · unfold runWithContext
    rw [h]

/-- C7 witness: a draft holding `"boom"`; a later `setError`, a failing
`Project` on a missing index, and an invalid-type `add` all keep
`"boom"`, and running returns it before any request. -/
theorem c7_witness :
    c7wCT.err = some "boom" ∧
    (setError c7wCT (some "later")).err = some "boom" ∧
    ((([some "later", some "even later"] : List (Option String)).foldl setError
      c7wCT).err = some "boom") ∧
    (ctProject c7wCT "nope" "ALL" []).err = some "boom" ∧
    (ctAdd c7wCT "k" "").err = some "boom" ∧
    runWithContext c7wCT = .storedError "boom" := by
  have h := c7_first_error_wins c7wCT "boom" rfl
  exact ⟨rfl, h.1 (some "later"), h.2.1 [some "later", some "even later"],
    h.2.2.1 "nope" "ALL" [], h.2.2.2.1 "k" "", h.2.2.2.2⟩

/-- C8 counterexample: the claim states that registering an attribute
name a second time with a conflicting scalar type records an error; but
`add` (createtable.go lines 414-418) returns silently whenever the name
is already declared, whatever type is supplied: after adding `a` as `S`
and again as `N`, no error is recorded and the first declaration
stands. -/
theorem c8_counterexample_silent_conflict :
    (ctAdd (ctAdd ctEmptyDraft "a" "S") "a" "N").err = none ∧
    (ctAdd (ctAdd ctEmptyDraft "a" "S") "a" "N").attribs = [⟨"a", "S"⟩] := by
  constructor <;> rfl

/-- C8 (amended): each attribute name appears at most once in the
accumulated declarations; registering an already-declared name again
with any non-empty type is silently ignored (first declaration wins, no
error is recorded); only an empty — unresolvable — type records an
invalid-key-type error, at registration time. -/
theorem c8_amended_duplicate_names_ignored (ct : CreateTableT) (name typ : String) :
    ((ct.attribs.map fun a => a.attributeName).Nodup →
      ((ctAdd ct name typ).attribs.map fun a => a.attributeName).Nodup) ∧
    (typ ≠ "" → (ct.attribs.any fun a => a.attributeName = name) = true →
      ctAdd ct name typ = ct) ∧
    (typ = "" →
      ctAdd ct name typ = setError ct (some ("dynamo: invalid type for key: " ++ name))) := by
  refine ⟨?_, ?_, ?_⟩
  · intro hnd
    unfold ctAdd
    split_ifs with h1 h2
    · rw [setError_attribs]; exact hnd
    · exact hnd
    · simp only [List.map_append, List.map_cons, List.map_nil]
      rw [List.nodup_append]
      refine ⟨hnd, List.nodup_singleton _, ?_⟩
      intro x hx hx1
      simp only [List.mem_singleton] at hx1
      subst hx1
      obtain ⟨a, ha, rfl⟩ := List.mem_map.mp hx
      exact h2 (List.any_eq_true.mpr ⟨a, ha, by simp⟩)
  · intro ht ha
    unfold ctAdd
    rw [if_neg ht, if_pos]
    simpa using ha
  · intro ht
    unfold ctAdd
    rw [if_pos ht]

/-- C8 witness: the amended behavior at concrete inputs: a fresh name
keeps names unique, a duplicate registration with a different type is a
no-op, and an empty type records the error. -/
theorem c8_amended_witness :
    ((((ctAdd ctEmptyDraft "a" "S").attribs.map fun a => a.attributeName).Nodup)) ∧
    ctAdd (ctAdd ctEmptyDraft "a" "S") "a" "N" = ctAdd ctEmptyDraft "a" "S" ∧
    ctAdd ctEmptyDraft "b" "" =
      setError ctEmptyDraft (some ("dynamo: invalid type for key: " ++ "b")) := by
  refine ⟨?_, ?_, ?_⟩
  · exact (c8_amended_duplicate_names_ignored ctEmptyDraft "a" "S").1 (by simp [ctEmptyDraft, initialDraft])
  · exact (c8_amended_duplicate_names_ignored (ctAdd ctEmptyDraft "a" "S") "a" "N").2.1
      (by simp) (by rfl)
  · exact (c8_amended_duplicate_names_ignored ctEmptyDraft "b" "").2.2 rfl

/-- The `canRetry` classifier agrees exactly with the status condition
the claim states. -/
theorem canRetry_eq_true_iff (e : AWSError) : canRetry e = true ↔ retryableStatus e := by
  obtain ⟨rs, ac⟩ := e
  unfold canRetry retryableStatus
  cases rs with
  | none => simp
  | some status =>
      dsimp only
      by_cases h1 : status = 500 ∨ status = 503
      · rw [if_pos h1]
        rcases h1 with h | h <;> subst h <;> simp
      · rw [if_neg h1]
        push_neg at h1
        obtain ⟨h500, h503⟩ := h1
        by_cases h4 : status = 400
        · subst h4
          rw [if_pos rfl]
          cases ac with
          | none => simp
          | some code => simp [Bool.or_eq_true, beq_iff_eq]
        · rw [if_neg h4]
          simp [h500, h503, h4]

/-- Every iteration of the retry loop that runs at all makes at least
one attempt. -/
theorem retryAux_attempts_pos (f : Nat → Option AWSError) (next : Nat → Option Nat)
    (sleep : Nat → Option AWSError) (fuel i : Nat) (h : 1 ≤ fuel) :
    1 ≤ (retryAux f next sleep fuel i).2 := by
  cases fuel with
  | zero => omega
  | succ m =>
      unfold retryAux
      cases f i with
      | none => simp
      | some e =>
          by_cases hc : canRetry e <;> simp only [hc, if_true, if_false]
          · cases next i with
            | none => simp
            | some d =>
                cases sleep i with
                | none => simp
                | some ce => simp
          · simp

/-- C6: for a transport error on the first attempt, with backoff not yet
exhausted and the governing context not cancelled, the retry loop makes
a further attempt if and only if the error's HTTP status is 500 or 503,
or is 400 with a recognized throttling code (`retryableStatus`, shown
equal to the `canRetry` classification); every other error is returned
immediately, unchanged, after exactly one attempt. -/
theorem c6_retry_iff_retryable_status (f : Nat → Option AWSError)
    (next : Nat → Option Nat) (sleep : Nat → Option AWSError) (fuel : Nat)
    (e : AWSError) (d : Nat) (hf : f 0 = some e) (hn : next 0 = some d)
    (hs : sleep 0 = none) (hfuel : 2 ≤ fuel) :
    (canRetry e = true ↔ retryableStatus e) ∧
    (2 ≤ (retry f next sleep fuel).2 ↔ retryableStatus e) ∧
    (¬ retryableStatus e → retry f next sleep fuel = (.failed e, 1)) := by
  obtain ⟨m, rfl⟩ : ∃ m, fuel = m + 2 := ⟨fuel - 2, by omega⟩
  refine ⟨canRetry_eq_true_iff e, ?_, ?_⟩
  · cases hcb : canRetry e with
    | true =>
        have hstep : retry f next sleep (m + 2) =
            ((retryAux f next sleep (m + 1) 1).1,
              (retryAux f next sleep (m + 1) 1).2 + 1) := by
          unfold retry
          simp [retryAux, hf, hcb, hn, hs]
        rw [hstep]
        have hpos := retryAux_attempts_pos f next sleep (m + 1) 1 (by omega)
        constructor
        · intro _; exact (canRetry_eq_true_iff e).mp hcb
        · intro _; simp; omega
    | false =>
        have hstep : retry f next sleep (m + 2) = (.failed e, 1) := by
          unfold retry
          simp [retryAux, hf, hcb]
        rw [hstep]
        constructor
        · intro h2; simp at h2
        · intro hr
          have hc := (canRetry_eq_true_iff e).mpr hr
          rw [hcb] at hc
          cases hc
  · intro hr
    cases hcb : canRetry e with
    | true => exact absurd ((canRetry_eq_true_iff e).mp hcb) hr
    | false =>
        unfold retry
        simp [retryAux, hf, hcb]

/-- C6 witness: a 500-status error on the first attempt with available
backoff and an uncancelled context is retried (two attempts, the second
succeeding); the classifier marks it retryable. -/
theorem c6_witness :
    retryableStatus c6wErr ∧
    canRetry c6wErr = true ∧
    2 ≤ (retry (fun i => if i = 0 then some c6wErr else none) (fun _ => some 1)
      (fun _ => none) 2).2 := by
  have h := c6_retry_iff_retryable_status (fun i => if i = 0 then some c6wErr else none)
    (fun _ => some 1) (fun _ => none) 2 c6wErr 1 rfl rfl rfl (by omega)
  have hr : retryableStatus c6wErr := Or.inl rfl
  exact ⟨hr, h.1.mpr hr, h.2.1.mpr hr⟩

end Dynamo
